import Mathlib

/-!
Shallow embedding of the `ttt_pymongo` ingestion utility
(`src/utils.py`, `src/preprocess.py`).

The MongoDB server is modelled as explicit state: a database is an
association list from collection names to the list of documents stored
in that collection.  The pymongo driver's responses that the code merely
inspects (acknowledgment flags, inserted-id counts, the effect of a
`find`/`update_many`/`delete_many` filter) are supplied by a `Store`
oracle, since their values are produced by the external driver, not by
this repository's code.  Python exceptions (`AttributeError` on the
`None` database handle, `RuntimeError` raised by validation,
`TypeError`, `ValueError`) are modelled with `Except`.  Every operation
that issues a mutating store call also returns a trace of `Event`s; an
event records the database state at the moment the call was issued,
which lets the write-guard invariant be stated directly.
Console `print` diagnostics are not modelled.
-/

namespace TTTPymongo

/-- A scalar value of a tweet record field (string, integer, or null). -/
inductive Value
  | str (s : String)
  | int (n : Int)
  | null
deriving DecidableEq, Repr

/-- One tweet record: a mapping from field name to scalar value
(a Python `dict`). -/
abbrev Record := List (String × Value)

/-- State of one MongoDB database: its collections, each a named list of
stored documents. -/
structure DB where
  collections : List (String × List Record)
deriving DecidableEq, Repr

/-- pymongo `Database.list_collection_names()`. -/
def DB.list_collection_names (db : DB) : List String :=
  db.collections.map Prod.fst

/-- The documents currently stored in a collection (empty if absent). -/
def DB.getRecords (db : DB) (c : String) : List Record :=
  (db.collections.lookup c).getD []

/-- Replace the contents of collection `c` (creating it if absent). -/
def DB.setColl (db : DB) (c : String) (rs : List Record) : DB :=
  if (db.collections.lookup c).isSome then
    ⟨db.collections.map (fun p => if p.1 = c then (c, rs) else p)⟩
  else
    ⟨db.collections ++ [(c, rs)]⟩

/-- pymongo `Database.create_collection(c)`: registers an empty
collection (the wrapper only calls this when `c` is absent). -/
def DB.createColl (db : DB) (c : String) : DB :=
  if (db.collections.lookup c).isSome then db
  else ⟨db.collections ++ [(c, [])]⟩

/-- pymongo `Database.drop_collection(c)`: removes the collection. -/
def DB.dropColl (db : DB) (c : String) : DB :=
  ⟨db.collections.filter (fun p => p.1 ≠ c)⟩

/-- pymongo `Collection.insert_many(docs)` applied to the state: appends
the batch to the collection (MongoDB creates the collection implicitly
if it is absent). -/
def DB.insertManyStore (db : DB) (c : String) (docs : List Record) : DB :=
  db.setColl c (db.getRecords c ++ docs)

/-- `TweetDB.collection_exists` body run against a concrete database
handle: membership of the name in `list_collection_names()`. -/
def collection_exists (db : DB) (collection_name : String) : Bool :=
  decide (collection_name ∈ db.list_collection_names)

/-- A mutating store call issued by the gateway. -/
inductive Call
  | insertMany (coll : String) (docs : List Record)
  | updateMany (coll : String)
  | deleteMany (coll : String)
  | createColl (coll : String)
  | dropColl (coll : String)
deriving DecidableEq, Repr

/-- A traced store call together with the database state at the moment
the call was issued. -/
abbrev Event := DB × Call

/-- The collection a call writes documents to (insert/update/delete);
`none` for the DDL calls. -/
def Call.writeTarget : Call → Option String
  | .insertMany c _ => some c
  | .updateMany c => some c
  | .deleteMany c => some c
  | _ => none

/-- Every write call in the trace was issued in a state where its target
collection already existed. -/
def writesGuarded (tr : List Event) : Prop :=
  ∀ e ∈ tr, ∀ c, e.2.writeTarget = some c → collection_exists e.1 c = true

/-- A Python exception escaping one of the wrapper methods. -/
inductive PyErr
  | attributeError
  | typeError
  | runtimeError (msg : String)
  | valueError (msg : String)
deriving DecidableEq, Repr

/-- Tri-state result of `TweetDB.insert_tweets`: Python `False` /
`True` / `None`. -/
inductive Outcome
  | fail
  | ok
  | unvalidated
deriving DecidableEq, Repr

/-- Oracle for the parts of a driver response that the wrapper inspects
but the external store produces: acknowledgment flags, the reported
inserted-id count, and the effect of filtered find/update/delete. -/
structure Store where
  insertAck : String → List Record → Bool
  insertedCount : String → List Record → Nat
  find : Record → Option (List String) → Nat → List Record → List Record
  updateAck : String → Record → Record → Bool
  applyUpdate : Record → Record → List Record → List Record
  deleteAck : String → Record → Bool
  applyDelete : Record → List Record → List Record

/-- A well-behaved store: every operation acknowledged, the reported
inserted count is the submitted count, filters match everything and
updates change nothing. -/
def idealStore : Store where
  insertAck := fun _ _ => true
  insertedCount := fun _ docs => docs.length
  find := fun _ _ _ rs => rs
  updateAck := fun _ _ _ => true
  applyUpdate := fun _ _ rs => rs
  deleteAck := fun _ _ => true
  applyDelete := fun _ rs => rs

/-- `TweetDB.__init__` leaves `self._db = None` when the requested
database name is not on the server; wrapper state after construction. -/
structure TweetDB where
  db_name : String
  _db : Option DB
deriving DecidableEq, Repr

/-- `DB_CONFIG['DB_NAME']`. -/
def DB_CONFIG_DB_NAME : String := "tweets"

/-- `COLLECTION_NAMES['raw']`. -/
def COLLECTION_NAMES_raw : String := "raw"

/-- The server reached by the client: its databases by name. -/
structure Server where
  dbs : List (String × DB)
deriving DecidableEq, Repr

/-- `TweetDB.db_exists`: membership in `list_database_names()`. -/
def db_exists (srv : Server) (db_name : String) : Bool :=
  decide (db_name ∈ srv.dbs.map Prod.fst)

/-- `TweetDB.__init__(db_name, ...)`: defaults the name from
`DB_CONFIG`, sets `_db` only when the database exists on the server. -/
def TweetDB.init (srv : Server) (db_name : Option String) : TweetDB :=
  let name := db_name.getD DB_CONFIG_DB_NAME
  { db_name := name
    _db := if db_exists srv name then srv.dbs.lookup name else none }

/-- `TweetDB.collection_exists`: accesses `self._db` (raises
`AttributeError` when the handle is `None`). -/
def TweetDB.collection_exists (t : TweetDB) (collection_name : String) :
    Except PyErr Bool :=
  match t._db with
  | none => .error .attributeError
  | some db => .ok (TTTPymongo.collection_exists db collection_name)

/-- `TweetDB.drop_collection`: no-op when absent, else drops. -/
def TweetDB.drop_collection (t : TweetDB) (collection_name : String) :
    Except PyErr TweetDB × List Event :=
  match t._db with
  | none => (.error .attributeError, [])
  | some db =>
    if TTTPymongo.collection_exists db collection_name = false then
      (.ok t, [])
    else
      (.ok { t with _db := some (db.dropColl collection_name) },
       [(db, Call.dropColl collection_name)])

/-- `TweetDB.create_collection`: when the collection exists and
overwrite is requested it calls `drop_collection` and then falls off the
end of the method (the recreate only happens in the not-exists branch);
when it exists without overwrite, no-op; otherwise creates fresh. -/
def TweetDB.create_collection (t : TweetDB) (new_collection_name : String)
    (overwrite_old_collection : Bool) : Except PyErr TweetDB × List Event :=
  match t._db with
  | none => (.error .attributeError, [])
  | some db =>
    if TTTPymongo.collection_exists db new_collection_name then
      if overwrite_old_collection then
        t.drop_collection new_collection_name
      else
        (.ok t, [])
    else
      (.ok { t with _db := some (db.createColl new_collection_name) },
       [(db, Call.createColl new_collection_name)])

/-- `TweetDB.insert_tweets`: empty-batch check first (no store access),
then the existence guard, then the unordered `insert_many`, then the
optional acknowledgment/count validation. -/
def TweetDB.insert_tweets (store : Store) (t : TweetDB)
    (tweet_list : List Record) (collection_name : String)
    (validate : Bool) : Except PyErr (Outcome × TweetDB) × List Event :=
  let n_tweets := tweet_list.length
  if n_tweets = 0 then (.ok (.fail, t), [])
  else
    match t._db with
    | none => (.error .attributeError, [])
    | some db =>
      if TTTPymongo.collection_exists db collection_name = false then
        (.ok (.fail, t), [])
      else
        let db2 := db.insertManyStore collection_name tweet_list
        let t2 : TweetDB := { t with _db := some db2 }
        let ev : List Event := [(db, Call.insertMany collection_name tweet_list)]
        if validate then
          if store.insertAck collection_name tweet_list then
            if n_tweets = store.insertedCount collection_name tweet_list then
              (.ok (.ok, t2), ev)
            else
              (.ok (.fail, t2), ev)
          else
            (.ok (.fail, t2), ev)
        else
          (.ok (.unvalidated, t2), ev)

/-- `TweetDB.query`: existence guard returning `None`, else `find`
(the `lazy` flag chooses cursor vs list in Python; both carry the same
documents here). -/
def TweetDB.query (store : Store) (t : TweetDB) (collection : String)
    (query_dict : Record) (return_fields : Option (List String))
    (limit_results : Nat) (lazy : Bool) :
    Except PyErr (Option (List Record)) :=
  match t._db with
  | none => .error .attributeError
  | some db =>
    if TTTPymongo.collection_exists db collection = false then .ok none
    else
      let result := store.find query_dict return_fields limit_results
        (db.getRecords collection)
      if lazy then .ok (some result) else .ok (some result)

/-- `TweetDB.update_tweets`: existence guard returning `None`, else
`update_many`; under `validate`, a missing acknowledgment raises
`RuntimeError` (after the store call was issued). -/
def TweetDB.update_tweets (store : Store) (t : TweetDB) (collection : String)
    (query_dict : Record) (update_dict : Record) (validate : Bool) :
    Except PyErr TweetDB × List Event :=
  match t._db with
  | none => (.error .attributeError, [])
  | some db =>
    if TTTPymongo.collection_exists db collection = false then (.ok t, [])
    else
      let db2 := db.setColl collection
        (store.applyUpdate query_dict update_dict (db.getRecords collection))
      let ev : List Event := [(db, Call.updateMany collection)]
      if validate && !(store.updateAck collection query_dict update_dict) then
        (.error (.runtimeError
          "update_tweets: update was not acknowledged (likely unsuccessful)."), ev)
      else
        (.ok { t with _db := some db2 }, ev)

/-- `TweetDB.delete_tweets`: existence guard returning `None`, else
`delete_many`; under `validate`, a missing acknowledgment raises
`RuntimeError`. -/
def TweetDB.delete_tweets (store : Store) (t : TweetDB) (collection : String)
    (query_dict : Record) (validate : Bool) :
    Except PyErr TweetDB × List Event :=
  match t._db with
  | none => (.error .attributeError, [])
  | some db =>
    if TTTPymongo.collection_exists db collection = false then (.ok t, [])
    else
      let db2 := db.setColl collection
        (store.applyDelete query_dict (db.getRecords collection))
      let ev : List Event := [(db, Call.deleteMany collection)]
      if validate && !(store.deleteAck collection query_dict) then
        (.error (.runtimeError
          "delete_tweets: delete was not acknowledged (likely unsuccessful)."), ev)
      else
        (.ok { t with _db := some db2 }, ev)

/-- The `collections` argument of `count_tweets`: Python `None`, a
single name, or a list of names. -/
inductive CountArg
  | noneArg
  | one (name : String)
  | many (names : List String)
deriving DecidableEq, Repr

/-- The summation loop of `count_tweets` over a list of names: existing
collections contribute their count, absent ones are skipped.
(`estimated_document_count` is modelled as the exact count.) -/
def countLoop (db : DB) : List String → Nat
  | [] => 0
  | c :: rest =>
    (if TTTPymongo.collection_exists db c then (db.getRecords c).length else 0)
      + countLoop db rest

/-- `TweetDB.count_tweets`: `None` argument returns `None` without
touching the handle; a single name falls through to an implicit `None`
when the collection is absent; a list is summed, skipping absent names
(the loop touches the handle only when the list is non-empty). -/
def TweetDB.count_tweets (t : TweetDB) (collections : CountArg)
    (approximate : Bool) : Except PyErr (Option Nat) :=
  match collections with
  | .noneArg => .ok none
  | .one name =>
    match t._db with
    | none => .error .attributeError
    | some db =>
      if TTTPymongo.collection_exists db name then
        .ok (some (if approximate then (db.getRecords name).length
                   else (db.getRecords name).length))
      else .ok none
  | .many names =>
    match names with
    | [] => .ok (some 0)
    | _ :: _ =>
      match t._db with
      | none => .error .attributeError
      | some db => .ok (some (countLoop db names))

/-- The local filesystem as the orchestrator sees it:
`get_data_file_list(path, ext)` (non-recursive glob), and the two file
loaders, which return `none` when the file does not exist
(`load_json_file` / `load_csv_file` both return Python `None` then). -/
structure Env where
  listFiles : String → String → List String
  loadJson : String → Option (List Record)
  loadCsv : String → Option (List Record)

/-- `RAW_DATA_PATHS`: group key, directory path, file type. -/
def RAW_DATA_PATHS : List (String × String × String) :=
  [("govt", "../data/raw/tweets-govt_entities/", "json"),
   ("indiv", "../data/raw/tweets-individuals/", "json"),
   ("news", "../data/raw/tweets-news_orgs/", "json"),
   ("random", "../data/raw/tweets-random/", "json"),
   ("troll", "../data/raw/tweets-troll/", "csv")]

/-- The inner per-file loop of `load_raw_data`: load each file with the
group's loader (a `None` result makes the subsequent `len(None)` raise
`TypeError`), insert into the `raw` collection with validation, record
the per-file outcome, and continue with the remaining files regardless
of the outcome. -/
def processFiles (store : Store) (t : TweetDB)
    (file_loader : String → Option (List Record)) :
    List String → Except PyErr (TweetDB × List (String × Outcome)) × List Event
  | [] => (.ok (t, []), [])
  | f :: rest =>
    match file_loader f with
    | none => (.error .typeError, [])
    | some loaded_tweets =>
      match t.insert_tweets store loaded_tweets COLLECTION_NAMES_raw true with
      | (.error e, ev) => (.error e, ev)
      | (.ok (result, t1), ev1) =>
        match processFiles store t1 file_loader rest with
        | (.error e, ev2) => (.error e, ev1 ++ ev2)
        | (.ok (t2, rep), ev2) => (.ok (t2, (f, result) :: rep), ev1 ++ ev2)

/-- The outer per-group loop of `load_raw_data`: pick the loader for the
group's declared file type (skipping unimplemented types), list the
group's files, process them, then continue with the remaining groups. -/
def processGroups (env : Env) (store : Store) (t : TweetDB) :
    List (String × String × String) →
    Except PyErr (TweetDB × List (String × Outcome)) × List Event
  | [] => (.ok (t, []), [])
  | g :: rest =>
    if g.2.2 = "json" ∨ g.2.2 = "csv" then
      let file_loader := if g.2.2 = "json" then env.loadJson else env.loadCsv
      let data_file_list := env.listFiles g.2.1 g.2.2
      match processFiles store t file_loader data_file_list with
      | (.error e, ev) => (.error e, ev)
      | (.ok (t1, rep1), ev1) =>
        match processGroups env store t1 rest with
        | (.error e, ev2) => (.error e, ev1 ++ ev2)
        | (.ok (t2, rep2), ev2) => (.ok (t2, rep1 ++ rep2), ev1 ++ ev2)
    else
      processGroups env store t rest

/-- `load_raw_data`: default the collection name, cancel when the
collection exists and `drop_old_data` is false, otherwise
`create_collection` (overwrite handled there) and iterate the catalog.
Note the inner inserts always target `COLLECTION_NAMES['raw']`. -/
def load_raw_data (env : Env) (store : Store) (db : TweetDB)
    (raw_collection_name : Option String) (drop_old_data : Bool) :
    Except PyErr (TweetDB × List (String × Outcome)) × List Event :=
  let name := raw_collection_name.getD COLLECTION_NAMES_raw
  match db.collection_exists name with
  | .error e => (.error e, [])
  | .ok ex =>
    if ex && !drop_old_data then (.ok (db, []), [])
    else
      match db.create_collection name drop_old_data with
      | (.error e, ev) => (.error e, ev)
      | (.ok t1, ev1) =>
        match processGroups env store t1 RAW_DATA_PATHS with
        | (.error e, ev2) => (.error e, ev1 ++ ev2)
        | (.ok (t2, rep), ev2) => (.ok (t2, rep), ev1 ++ ev2)

/-- The files discovered over a list of catalog groups: per group with
an implemented file type, the group's directory listing. -/
def discoveredIn (env : Env) (groups : List (String × String × String)) :
    List String :=
  ((groups.filter
      (fun g => decide (g.2.2 = "json" ∨ g.2.2 = "csv"))).map
    (fun g => env.listFiles g.2.1 g.2.2)).flatten

/-- All files the orchestrator discovers across the catalog. -/
def discoveredFiles (env : Env) : List String :=
  discoveredIn env RAW_DATA_PATHS

/-- `csv_column_dtype_mapping`: the 21-column dtype contract passed to
the CSV parser. -/
def csv_column_dtype_mapping : List (String × String) :=
  [("external_author_id", "string"),
   ("author", "string"),
   ("content", "string"),
   ("region", "string"),
   ("language", "string"),
   ("publish_date", "string"),
   ("harvested_date", "string"),
   ("following", "int64"),
   ("followers", "int64"),
   ("updates", "int64"),
   ("post_type", "string"),
   ("account_type", "string"),
   ("retweet", "uint8"),
   ("account_category", "string"),
   ("new_june_2018", "uint8"),
   ("alt_external_id", "string"),
   ("tweet_id", "string"),
   ("article_url", "string"),
   ("tco1_step1", "string"),
   ("tco2_step1", "string"),
   ("tco3_step1", "string")]

/-- Decimal digits to the number they spell. -/
def digitsToNat (ds : List Char) : Nat :=
  ds.foldl (fun acc c => acc * 10 + (c.toNat - 48)) 0

/-- A plain decimal integer literal (optional leading minus), as the
CSV integer columns carry; anything else fails to parse. -/
def parseInt64 (s : String) : Option Int :=
  match s.toList with
  | [] => none
  | '-' :: ds =>
    if !ds.isEmpty && ds.all Char.isDigit then
      some (-(digitsToNat ds : Int))
    else none
  | ds =>
    if ds.all Char.isDigit then some ((digitsToNat ds : Int)) else none

/-- One CSV cell parsed under its declared dtype: integer dtypes become
integers (unparseable cells become null, the lenient mode), string
dtypes (and unmapped columns) stay text. -/
def parseCell (dtype : String) (cell : String) : Value :=
  if dtype = "int64" ∨ dtype = "uint8" then
    match parseInt64 cell with
    | some n => Value.int n
    | none => Value.null
  else Value.str cell

/-- `load_csv_file` on an already-read file, modelling the external
`pandas.read_csv(dtype=csv_column_dtype_mapping)` +
`to_dict(orient="records")` steps: one record per data row, each column
parsed under the mapped dtype. -/
def load_csv_file (header : List String) (rows : List (List String)) :
    List Record :=
  rows.map (fun row =>
    (header.zip row).map (fun p =>
      (p.1, parseCell ((csv_column_dtype_mapping.lookup p.1).getD "string") p.2)))

/-- `needle` occurs as a contiguous substring of the haystack. -/
def containsSub (needle : List Char) : List Char → Bool
  | [] => needle.isEmpty
  | c :: rest => needle.isPrefixOf (c :: rest) || containsSub needle rest

/-- `preprocess.has_url`: substring search for `search_str` in the
record's `content` field; a null content yields 0; a missing or
non-string content raises in Python (`KeyError` / `TypeError`),
modelled as `none`. -/
def has_url (tweet_series : Record) (search_str : String) : Option Int :=
  match tweet_series.lookup "content" with
  | some (Value.str c) =>
    some (if containsSub search_str.toList c.toList then 1 else 0)
  | some Value.null => some 0
  | _ => none

/-- The chunking loop of `batched`:
`while (chunk := tuple(islice(it, chunk_size))): yield chunk`. -/
def chunksWhile (k : Nat) (l : List Record) : List (List Record) :=
  if h : l.take k = [] then []
  else l.take k :: chunksWhile k (l.drop k)
termination_by l.length
decreasing_by
  have hl : l ≠ [] := by
    intro hnil
    exact h (by simp [hnil])
  have hk : k ≠ 0 := by
    intro hk0
    exact h (by simp [hk0])
  simp only [List.length_drop]
  exact Nat.sub_lt (List.length_pos.mpr hl) (Nat.pos_of_ne_zero hk)

/-- `batched`: guard `chunk_size` (raising `ValueError` before touching
the cursor), guard the progress-bar arguments, then yield fixed-size
chunks until the cursor is exhausted (the tqdm progress bar itself is
presentation only and not modelled). -/
def batched (cursor : List Record) (chunk_size : Int)
    (show_progress_bar : Bool) (progress_bar_n_chunks : Int) :
    Except PyErr (List (List Record)) :=
  if chunk_size < 1 then
    .error (.valueError "batched: minimum chunk_size is 1")
  else if show_progress_bar && decide (progress_bar_n_chunks ≤ 0) then
    .error (.valueError
      "batched: if show_progress_bar is true, must provide a positive progress_bar_n_chunks")
  else
    .ok (chunksWhile chunk_size.toNat cursor)

/-! ### Concrete fixtures used by the claim theorems -/

/-- A one-field tweet record. -/
def recC2 : Record := [("author", Value.str "alice")]

/-- A filesystem with a single JSON file (one record) in the govt
directory and nothing anywhere else. -/
def envC2 : Env where
  listFiles := fun path _ =>
    if path = "../data/raw/tweets-govt_entities/" then ["a.json"] else []
  loadJson := fun f => if f = "a.json" then some [recC2] else none
  loadCsv := fun _ => none

/-- Wrapper connected to an empty database named `tweets`. -/
def t0C2 : TweetDB := ⟨"tweets", some ⟨[]⟩⟩

/-- Wrapper state holding an existing `raw` collection with one tweet. -/
def tC1 : TweetDB := ⟨"tweets", some ⟨[("raw", [recC2])]⟩⟩

/-- C1: the claim says `create_collection(name, overwrite=true)` on an
existing collection drops and recreates it, leaving an existing empty
collection.  Evaluating the code on a database holding a non-empty
`raw` collection shows it drops the collection and never recreates it:
afterwards the collection does not exist at all.  (The recreate call
sits in the not-exists branch of the outer `if`, so the
exists-and-overwrite path falls off the end of the method after the
drop.) -/
theorem create_collection_overwrite_drops_without_recreate :
    (TweetDB.create_collection tC1 "raw" true).1 = .ok ⟨"tweets", some ⟨[]⟩⟩
      ∧ collection_exists ⟨[]⟩ "raw" = false := by
  exact ⟨rfl, rfl⟩

/-- C2: the claim says a second full reload (`load_raw_data` with
`drop_old_data=true`) leaves the record count unchanged.  Evaluating
the code on a one-file catalog: the first run ends with one record in
`raw` (count 1), but the second run drops `raw` without recreating it,
every insert is then rejected by the existence guard, and afterwards
`raw` does not exist (`count_tweets` returns the implicit Python
`None`). -/
theorem load_raw_data_second_run_loses_all_records :
    (load_raw_data envC2 idealStore t0C2 none true).1
        = .ok (⟨"tweets", some ⟨[("raw", [recC2])]⟩⟩, [("a.json", Outcome.ok)])
      ∧ TweetDB.count_tweets ⟨"tweets", some ⟨[("raw", [recC2])]⟩⟩
          (CountArg.one "raw") false = .ok (some 1)
      ∧ (load_raw_data envC2 idealStore
            ⟨"tweets", some ⟨[("raw", [recC2])]⟩⟩ none true).1
          = .ok (⟨"tweets", some ⟨[]⟩⟩, [("a.json", Outcome.fail)])
      ∧ TweetDB.count_tweets ⟨"tweets", some ⟨[]⟩⟩
          (CountArg.one "raw") false = .ok none := by
  exact ⟨rfl, rfl, rfl, rfl⟩

/-- C9: loading the CSV with header `author,content,following` and rows
`("alice","hello http://x",3)`, `("bob","no link",0)`, then applying
`has_url` (substring search for `http` in `content`) to each record in
order, yields `[1, 0]`. -/
theorem load_csv_then_has_url_scenario :
    load_csv_file ["author", "content", "following"]
        [["alice", "hello http://x", "3"], ["bob", "no link", "0"]]
      = [[("author", Value.str "alice"),
          ("content", Value.str "hello http://x"),
          ("following", Value.int 3)],
         [("author", Value.str "bob"),
          ("content", Value.str "no link"),
          ("following", Value.int 0)]]
      ∧ (load_csv_file ["author", "content", "following"]
          [["alice", "hello http://x", "3"], ["bob", "no link", "0"]]).map
        (fun r => has_url r "http") = [some 1, some 0] := by
  exact ⟨by decide, by decide⟩

/-- C3: `insert_tweets` returns `False` with an unchanged database and
an empty store-call trace (so no insert is attempted) whenever the
batch is empty or the named collection does not exist; the empty-batch
check precedes any database access and the existence check precedes the
insert. -/
theorem insert_tweets_rejects_before_store (store : Store) (t : TweetDB)
    (tweet_list : List Record) (collection_name : String) (validate : Bool) :
    (tweet_list = [] →
      t.insert_tweets store tweet_list collection_name validate
        = (.ok (.fail, t), []))
    ∧ (∀ db, t._db = some db →
        collection_exists db collection_name = false →
        t.insert_tweets store tweet_list collection_name validate
          = (.ok (.fail, t), [])) := by
  constructor
  · intro h
    subst h
    rfl
  · intro db hdb hex
    by_cases h0 : tweet_list.length = 0
    · simp [TweetDB.insert_tweets, h0]
    · simp [TweetDB.insert_tweets, h0, hdb, hex]

theorem insert_tweets_rejects_before_store_witness :
    TweetDB.insert_tweets idealStore t0C2 [recC2] "missing" true
      = (.ok (.fail, t0C2), []) :=
  (insert_tweets_rejects_before_store idealStore t0C2 [recC2] "missing"
    true).2 ⟨[]⟩ rfl rfl

/-- C4: given a live database handle, `insert_tweets` always returns one
of the three outcomes, and: `False` exactly when a precondition fails
or validation was requested and the store's acknowledgment is missing
or the reported inserted count differs from the submitted count; `True`
exactly when the preconditions hold, validation was requested, the
result is acknowledged and the counts agree; `None` exactly when the
preconditions hold and validation was not requested. -/
theorem insert_tweets_outcome_trichotomy (store : Store) (t : TweetDB)
    (db : DB) (tweet_list : List Record) (collection_name : String)
    (validate : Bool) (hdb : t._db = some db) :
    ∃ o t2 ev,
      t.insert_tweets store tweet_list collection_name validate
          = (.ok (o, t2), ev)
      ∧ (o = .fail ↔ tweet_list = []
          ∨ collection_exists db collection_name = false
          ∨ (validate = true
              ∧ (store.insertAck collection_name tweet_list = false
                  ∨ ¬ tweet_list.length
                      = store.insertedCount collection_name tweet_list)))
      ∧ (o = .ok ↔ ¬ tweet_list = []
          ∧ collection_exists db collection_name = true
          ∧ validate = true
          ∧ store.insertAck collection_name tweet_list = true
          ∧ tweet_list.length = store.insertedCount collection_name tweet_list)
      ∧ (o = .unvalidated ↔ ¬ tweet_list = []
          ∧ collection_exists db collection_name = true
          ∧ validate = false) := by
  obtain ⟨nm, odb⟩ := t
  cases hdb
  by_cases h0 : tweet_list.length = 0
  · rw [List.length_eq_zero] at h0
    refine ⟨.fail, ⟨nm, some db⟩, [],
      by simp [TweetDB.insert_tweets, h0], ?_, ?_, ?_⟩ <;> simp [h0]
  · have hne : ¬ tweet_list = [] := by
      intro h
      exact h0 (by simp [h])
    by_cases hex : collection_exists db collection_name = true
    · by_cases hval : validate = true
      · by_cases hack : store.insertAck collection_name tweet_list = true
        · by_cases hcnt : tweet_list.length
              = store.insertedCount collection_name tweet_list
          · refine ⟨.ok,
              ⟨nm, some (db.insertManyStore collection_name tweet_list)⟩,
              [(db, Call.insertMany collection_name tweet_list)], ?_,
              ?_, ?_, ?_⟩
            · simp only [TweetDB.insert_tweets]
              rw [if_neg h0]
              simp [hex, hval, hack, if_pos hcnt]
            · simp [hne, hex, hval, hack, hcnt]
            · simp [hne, hex, hval, hack, hcnt]
            · simp [hne, hex, hval, hack, hcnt]
          · refine ⟨.fail,
              ⟨nm, some (db.insertManyStore collection_name tweet_list)⟩,
              [(db, Call.insertMany collection_name tweet_list)], ?_,
              ?_, ?_, ?_⟩
            · simp only [TweetDB.insert_tweets]
              rw [if_neg h0]
              simp [hex, hval, hack, if_neg hcnt]
            · simp [hne, hex, hval, hack, hcnt]
            · simp [hne, hex, hval, hack, hcnt]
            · simp [hne, hex, hval, hack, hcnt]
        · rw [Bool.not_eq_true] at hack
          refine ⟨.fail,
            ⟨nm, some (db.insertManyStore collection_name tweet_list)⟩,
            [(db, Call.insertMany collection_name tweet_list)],
            by simp [TweetDB.insert_tweets, h0, hex, hval, hack],
            ?_, ?_, ?_⟩ <;> simp [hne, hex, hval, hack]
      · rw [Bool.not_eq_true] at hval
        refine ⟨.unvalidated,
          ⟨nm, some (db.insertManyStore collection_name tweet_list)⟩,
          [(db, Call.insertMany collection_name tweet_list)],
          by simp [TweetDB.insert_tweets, h0, hex, hval],
          ?_, ?_, ?_⟩ <;> simp [hne, hex, hval]
    · rw [Bool.not_eq_true] at hex
      refine ⟨.fail, ⟨nm, some db⟩, [],
        by simp [TweetDB.insert_tweets, h0, hex], ?_, ?_, ?_⟩ <;>
        simp [hne, hex]

theorem insert_tweets_outcome_trichotomy_witness :
    ∃ o t2 ev,
      TweetDB.insert_tweets idealStore tC1 [recC2] "raw" true
          = (.ok (o, t2), ev)
      ∧ (o = .fail ↔ [recC2] = ([] : List Record)
          ∨ collection_exists ⟨[("raw", [recC2])]⟩ "raw" = false
          ∨ (true = true
              ∧ (idealStore.insertAck "raw" [recC2] = false
                  ∨ ¬ [recC2].length = idealStore.insertedCount "raw" [recC2])))
      ∧ (o = .ok ↔ ¬ [recC2] = ([] : List Record)
          ∧ collection_exists ⟨[("raw", [recC2])]⟩ "raw" = true
          ∧ true = true
          ∧ idealStore.insertAck "raw" [recC2] = true
          ∧ [recC2].length = idealStore.insertedCount "raw" [recC2])
      ∧ (o = .unvalidated ↔ ¬ [recC2] = ([] : List Record)
          ∧ collection_exists ⟨[("raw", [recC2])]⟩ "raw" = true
          ∧ true = false) :=
  insert_tweets_outcome_trichotomy idealStore tC1 ⟨[("raw", [recC2])]⟩
    [recC2] "raw" true rfl

/-- C7: given a live database handle, `update_tweets` and
`delete_tweets` return the sentinel `None` with no store call when the
collection is absent (never raising), and when the collection exists
they raise `RuntimeError` exactly when `validate` is true and the store
does not acknowledge the operation. -/
theorem update_delete_raise_iff_unacknowledged (store : Store)
    (t : TweetDB) (db : DB) (collection : String)
    (query_dict update_dict : Record) (validate : Bool)
    (hdb : t._db = some db) :
    (collection_exists db collection = false →
        t.update_tweets store collection query_dict update_dict validate
            = (.ok t, [])
      ∧ t.delete_tweets store collection query_dict validate = (.ok t, []))
    ∧ (collection_exists db collection = true →
        ((∃ msg, (t.update_tweets store collection query_dict update_dict
              validate).1 = .error (.runtimeError msg))
          ↔ validate = true
            ∧ store.updateAck collection query_dict update_dict = false)
      ∧ ((∃ msg, (t.delete_tweets store collection query_dict
              validate).1 = .error (.runtimeError msg))
          ↔ validate = true ∧ store.deleteAck collection query_dict = false)) := by
  obtain ⟨nm, odb⟩ := t
  cases hdb
  constructor
  · intro hex
    constructor
    · simp [TweetDB.update_tweets, hex]
    · simp [TweetDB.delete_tweets, hex]
  · intro hex
    constructor
    · by_cases hraise : validate = true
          ∧ store.updateAck collection query_dict update_dict = false
      · simp [TweetDB.update_tweets, hex, hraise.1, hraise.2]
      · have hguard : (validate
            && !store.updateAck collection query_dict update_dict) = false := by
          rcases Bool.eq_false_or_eq_true validate with hv | hv
          · rcases Bool.eq_false_or_eq_true
                (store.updateAck collection query_dict update_dict) with ha | ha
            · simp [ha]
            · exact absurd ⟨hv, ha⟩ hraise
          · simp [hv]
        simp only [TweetDB.update_tweets, hex]
        simp [hguard, hraise]
    · by_cases hraise : validate = true
          ∧ store.deleteAck collection query_dict = false
      · simp [TweetDB.delete_tweets, hex, hraise.1, hraise.2]
      · have hguard : (validate
            && !store.deleteAck collection query_dict) = false := by
          rcases Bool.eq_false_or_eq_true validate with hv | hv
          · rcases Bool.eq_false_or_eq_true
                (store.deleteAck collection query_dict) with ha | ha
            · simp [ha]
            · exact absurd ⟨hv, ha⟩ hraise
          · simp [hv]
        simp only [TweetDB.delete_tweets, hex]
        simp [hguard, hraise]

theorem update_delete_raise_iff_unacknowledged_witness :
    TweetDB.update_tweets idealStore t0C2 "raw" [] [] true = (.ok t0C2, [])
      ∧ TweetDB.delete_tweets idealStore t0C2 "raw" [] true = (.ok t0C2, []) :=
  (update_delete_raise_iff_unacknowledged idealStore t0C2 ⟨[]⟩ "raw" [] []
    true rfl).1 rfl

/-! ### Chunking lemmas for `batched` -/

theorem chunksWhile_nil (k : Nat) : chunksWhile k [] = [] := by
  rw [chunksWhile]
  simp

theorem chunksWhile_flatten_aux (k : Nat) (hk : 1 ≤ k) :
    ∀ n (l : List Record), l.length ≤ n → (chunksWhile k l).flatten = l := by
  intro n
  induction n with
  | zero =>
    intro l hl
    have hnil : l = [] := List.eq_nil_of_length_eq_zero (Nat.le_zero.mp hl)
    subst hnil
    simp [chunksWhile_nil]
  | succ n ih =>
    intro l hl
    by_cases hnil : l = []
    · subst hnil
      simp [chunksWhile_nil]
    · have htake : ¬ l.take k = [] := by
        rw [List.take_eq_nil_iff]
        rintro (hk0 | hl0)
        · omega
        · exact hnil hl0
      rw [chunksWhile, dif_neg htake]
      have hlen : (l.drop k).length ≤ n := by
        rw [List.length_drop]
        have hpos : 0 < l.length := List.length_pos.mpr hnil
        omega
      simp only [List.flatten_cons, ih (l.drop k) hlen]
      exact List.take_append_drop k l

theorem chunksWhile_mem_ne_nil (k : Nat) :
    ∀ n (l : List Record), l.length ≤ n →
      ∀ c ∈ chunksWhile k l, c ≠ [] := by
  intro n
  induction n with
  | zero =>
    intro l hl c hc
    have hnil : l = [] := List.eq_nil_of_length_eq_zero (Nat.le_zero.mp hl)
    subst hnil
    rw [chunksWhile_nil] at hc
    simp at hc
  | succ n ih =>
    intro l hl c hc
    by_cases htake : l.take k = []
    · rw [chunksWhile, dif_pos htake] at hc
      simp at hc
    · rw [chunksWhile, dif_neg htake] at hc
      rcases List.mem_cons.mp hc with hc | hc
      · subst hc
        exact htake
      · have hlen : (l.drop k).length ≤ n := by
          rw [List.length_drop]
          have hnil : l ≠ [] := by
            intro h
            exact htake (by simp [h])
          have hpos : 0 < l.length := List.length_pos.mpr hnil
          have hk : k ≠ 0 := by
            intro h
            exact htake (by simp [h])
          omega
        exact ih (l.drop k) hlen c hc

theorem chunksWhile_dropLast_length (k : Nat) (hk : 1 ≤ k) :
    ∀ n (l : List Record), l.length ≤ n →
      ∀ c ∈ (chunksWhile k l).dropLast, c.length = k := by
  intro n
  induction n with
  | zero =>
    intro l hl c hc
    have hnil : l = [] := List.eq_nil_of_length_eq_zero (Nat.le_zero.mp hl)
    subst hnil
    rw [chunksWhile_nil] at hc
    simp at hc
  | succ n ih =>
    intro l hl c hc
    by_cases htake : l.take k = []
    · rw [chunksWhile, dif_pos htake] at hc
      simp at hc
    · rw [chunksWhile, dif_neg htake] at hc
      by_cases hrest : chunksWhile k (l.drop k) = []
      · rw [hrest] at hc
        simp at hc
      · rw [List.dropLast_cons_of_ne_nil hrest] at hc
        have hnil : l ≠ [] := by
          intro h
          exact htake (by simp [h])
        have hlen : (l.drop k).length ≤ n := by
          rw [List.length_drop]
          have hpos : 0 < l.length := List.length_pos.mpr hnil
          omega
        rcases List.mem_cons.mp hc with hc | hc
        · subst hc
          have hdrop : ¬ l.drop k = [] := by
            intro h
            exact hrest (by simp [h, chunksWhile_nil])
          have hklen : k ≤ l.length := by
            by_contra hgt
            have : l.drop k = [] := List.drop_eq_nil_of_le (by omega)
            exact hdrop this
          rw [List.length_take]
          omega
        · exact ih (l.drop k) hlen c hc

/-- C8: for every finite cursor and `chunk_size >= 1`, `batched` (with
the progress bar off, its default) succeeds and yields non-empty chunks
whose in-order concatenation is the input, every chunk but possibly the
last holding exactly `chunk_size` elements; for `chunk_size < 1` it
raises `ValueError` before consuming the input. -/
theorem batched_chunks_spec (l : List Record) (chunk_size : Int) :
    (1 ≤ chunk_size →
      ∃ cs, batched l chunk_size false (-1) = .ok cs
        ∧ cs.flatten = l
        ∧ (∀ c ∈ cs, c ≠ [])
        ∧ (∀ c ∈ cs.dropLast, (c.length : Int) = chunk_size))
    ∧ (chunk_size < 1 →
      batched l chunk_size false (-1)
        = .error (.valueError "batched: minimum chunk_size is 1")) := by
  constructor
  · intro hk
    have hnlt : ¬ chunk_size < 1 := by omega
    have hkn : 1 ≤ chunk_size.toNat := by omega
    refine ⟨chunksWhile chunk_size.toNat l, by simp [batched, hnlt], ?_, ?_, ?_⟩
    · exact chunksWhile_flatten_aux chunk_size.toNat hkn l.length l le_rfl
    · exact chunksWhile_mem_ne_nil chunk_size.toNat l.length l le_rfl
    · intro c hc
      have hlen := chunksWhile_dropLast_length chunk_size.toNat hkn
        l.length l le_rfl c hc
      rw [hlen]
      exact Int.toNat_of_nonneg (by omega)
  · intro hk
    simp [batched, hk]

theorem batched_chunks_spec_witness :
    (∃ cs, batched [recC2, recC2, recC2] 2 false (-1) = .ok cs
        ∧ cs.flatten = [recC2, recC2, recC2]
        ∧ (∀ c ∈ cs, c ≠ [])
        ∧ (∀ c ∈ cs.dropLast, (c.length : Int) = 2))
      ∧ batched [recC2] 0 false (-1)
        = .error (.valueError "batched: minimum chunk_size is 1") :=
  ⟨(batched_chunks_spec [recC2, recC2, recC2] 2).1 (by decide),
   (batched_chunks_spec [recC2] 0).2 (by decide)⟩

/-- C10: constructing a `TweetDB` against a database name absent from
the server leaves the internal handle `None`, and every subsequent
operation that consults the database — `collection_exists`,
`create_collection`, `insert_tweets` (with a non-empty batch), `query`,
`update_tweets`, `delete_tweets`, `count_tweets` (with a collection
name) — raises `AttributeError` on the `None` handle instead of
returning a sentinel failure value. -/
theorem init_missing_db_raises_attribute_error (srv : Server)
    (name : String) (store : Store) (c : String) (ow validate lazy approx : Bool)
    (r : Record) (rs : List Record) (qd ud : Record)
    (rf : Option (List String)) (lim : Nat)
    (hmiss : db_exists srv name = false) :
    (TweetDB.init srv (some name))._db = none
    ∧ TweetDB.collection_exists (TweetDB.init srv (some name)) c
        = .error .attributeError
    ∧ TweetDB.create_collection (TweetDB.init srv (some name)) c ow
        = (.error .attributeError, [])
    ∧ TweetDB.insert_tweets store (TweetDB.init srv (some name)) (r :: rs) c
        validate = (.error .attributeError, [])
    ∧ TweetDB.query store (TweetDB.init srv (some name)) c qd rf lim lazy
        = .error .attributeError
    ∧ TweetDB.update_tweets store (TweetDB.init srv (some name)) c qd ud
        validate = (.error .attributeError, [])
    ∧ TweetDB.delete_tweets store (TweetDB.init srv (some name)) c qd
        validate = (.error .attributeError, [])
    ∧ TweetDB.count_tweets (TweetDB.init srv (some name)) (CountArg.one c)
        approx = .error .attributeError := by
  have hdb : (TweetDB.init srv (some name))._db = none := by
    simp [TweetDB.init, hmiss]
  refine ⟨hdb, ?_, ?_, ?_, ?_, ?_, ?_, ?_⟩
  · simp [TweetDB.collection_exists, hdb]
  · simp [TweetDB.create_collection, hdb]
  · simp [TweetDB.insert_tweets, hdb]
  · simp [TweetDB.query, hdb]
  · simp [TweetDB.update_tweets, hdb]
  · simp [TweetDB.delete_tweets, hdb]
  · simp [TweetDB.count_tweets, hdb]

theorem init_missing_db_raises_attribute_error_witness :
    (TweetDB.init ⟨[]⟩ (some "tweets"))._db = none
    ∧ TweetDB.collection_exists (TweetDB.init ⟨[]⟩ (some "tweets")) "raw"
        = .error .attributeError
    ∧ TweetDB.create_collection (TweetDB.init ⟨[]⟩ (some "tweets")) "raw" true
        = (.error .attributeError, [])
    ∧ TweetDB.insert_tweets idealStore (TweetDB.init ⟨[]⟩ (some "tweets"))
        (recC2 :: []) "raw" true = (.error .attributeError, [])
    ∧ TweetDB.query idealStore (TweetDB.init ⟨[]⟩ (some "tweets")) "raw" []
        none 0 true = .error .attributeError
    ∧ TweetDB.update_tweets idealStore (TweetDB.init ⟨[]⟩ (some "tweets"))
        "raw" [] [] true = (.error .attributeError, [])
    ∧ TweetDB.delete_tweets idealStore (TweetDB.init ⟨[]⟩ (some "tweets"))
        "raw" [] true = (.error .attributeError, [])
    ∧ TweetDB.count_tweets (TweetDB.init ⟨[]⟩ (some "tweets"))
        (CountArg.one "raw") false = .error .attributeError :=
  init_missing_db_raises_attribute_error ⟨[]⟩ "tweets" idealStore "raw"
    true true true false recC2 [] [] [] none 0 rfl

/-! ### Write-guard lemmas: every traced write call was issued in a
state where the target collection existed -/

theorem writesGuarded_nil : writesGuarded [] := by
  intro e he
  simp at he

theorem writesGuarded_append {a b : List Event} (ha : writesGuarded a)
    (hb : writesGuarded b) : writesGuarded (a ++ b) := by
  intro e he c hc
  rcases List.mem_append.mp he with h | h
  · exact ha e h c hc
  · exact hb e h c hc

theorem insert_tweets_trace_guarded (store : Store) (t : TweetDB)
    (tweet_list : List Record) (cn : String) (validate : Bool) :
    writesGuarded (TweetDB.insert_tweets store t tweet_list cn validate).2 := by
  obtain ⟨nm, odb⟩ := t
  by_cases h0 : tweet_list.length = 0
  · intro e he
    simp [TweetDB.insert_tweets, h0] at he
  · cases odb with
    | none =>
      intro e he
      simp [TweetDB.insert_tweets, h0] at he
    | some db =>
      by_cases hex : collection_exists db cn = false
      · intro e he
        simp [TweetDB.insert_tweets, h0, hex] at he
      · have hex' : collection_exists db cn = true := by
          rcases Bool.eq_false_or_eq_true (collection_exists db cn) with h | h
          · exact h
          · exact absurd h hex
        have htr : (TweetDB.insert_tweets store ⟨nm, some db⟩ tweet_list cn
            validate).2 = [(db, Call.insertMany cn tweet_list)] := by
          simp only [TweetDB.insert_tweets]
          rw [if_neg h0]
          split_ifs <;> simp_all
        rw [htr]
        intro e he c hc
        rw [List.mem_singleton] at he
        subst he
        simp only [Call.writeTarget, Option.some.injEq] at hc
        subst hc
        exact hex'

theorem update_tweets_trace_guarded (store : Store) (t : TweetDB)
    (collection : String) (qd ud : Record) (validate : Bool) :
    writesGuarded (TweetDB.update_tweets store t collection qd ud validate).2 := by
  obtain ⟨nm, odb⟩ := t
  cases odb with
  | none =>
    intro e he
    simp [TweetDB.update_tweets] at he
  | some db =>
    by_cases hex : collection_exists db collection = false
    · intro e he
      simp [TweetDB.update_tweets, hex] at he
    · have hex' : collection_exists db collection = true := by
        rcases Bool.eq_false_or_eq_true (collection_exists db collection)
          with h | h
        · exact h
        · exact absurd h hex
      have htr : (TweetDB.update_tweets store ⟨nm, some db⟩ collection qd ud
          validate).2 = [(db, Call.updateMany collection)] := by
        simp only [TweetDB.update_tweets]
        split_ifs <;> simp_all
      rw [htr]
      intro e he c hc
      rw [List.mem_singleton] at he
      subst he
      simp only [Call.writeTarget, Option.some.injEq] at hc
      subst hc
      exact hex'

theorem delete_tweets_trace_guarded (store : Store) (t : TweetDB)
    (collection : String) (qd : Record) (validate : Bool) :
    writesGuarded (TweetDB.delete_tweets store t collection qd validate).2 := by
  obtain ⟨nm, odb⟩ := t
  cases odb with
  | none =>
    intro e he
    simp [TweetDB.delete_tweets] at he
  | some db =>
    by_cases hex : collection_exists db collection = false
    · intro e he
      simp [TweetDB.delete_tweets, hex] at he
    · have hex' : collection_exists db collection = true := by
        rcases Bool.eq_false_or_eq_true (collection_exists db collection)
          with h | h
        · exact h
        · exact absurd h hex
      have htr : (TweetDB.delete_tweets store ⟨nm, some db⟩ collection qd
          validate).2 = [(db, Call.deleteMany collection)] := by
        simp only [TweetDB.delete_tweets]
        split_ifs <;> simp_all
      rw [htr]
      intro e he c hc
      rw [List.mem_singleton] at he
      subst he
      simp only [Call.writeTarget, Option.some.injEq] at hc
      subst hc
      exact hex'

theorem drop_collection_trace_guarded (t : TweetDB) (cn : String) :
    writesGuarded (t.drop_collection cn).2 := by
  obtain ⟨nm, odb⟩ := t
  cases odb with
  | none =>
    intro e he
    simp [TweetDB.drop_collection] at he
  | some db =>
    by_cases hex : collection_exists db cn = false
    · intro e he
      simp [TweetDB.drop_collection, hex] at he
    · have hex' : collection_exists db cn = true := by
        rcases Bool.eq_false_or_eq_true (collection_exists db cn) with h | h
        · exact h
        · exact absurd h hex
      intro e he c hc
      simp [TweetDB.drop_collection, hex'] at he
      subst he
      simp [Call.writeTarget] at hc

theorem create_collection_trace_guarded (t : TweetDB) (cn : String)
    (ow : Bool) : writesGuarded (t.create_collection cn ow).2 := by
  obtain ⟨nm, odb⟩ := t
  cases odb with
  | none =>
    intro e he
    simp [TweetDB.create_collection] at he
  | some db =>
    by_cases hex : collection_exists db cn = true
    · by_cases how : ow = true
      · have hguard := drop_collection_trace_guarded ⟨nm, some db⟩ cn
        intro e he c hc
        simp only [TweetDB.create_collection, hex, how, if_true] at he
        exact hguard e he c hc
      · rw [Bool.not_eq_true] at how
        intro e he
        simp [TweetDB.create_collection, hex, how] at he
    · rw [Bool.not_eq_true] at hex
      intro e he c hc
      simp [TweetDB.create_collection, hex] at he
      subst he
      simp [Call.writeTarget] at hc

theorem processFiles_trace_guarded (store : Store)
    (loader : String → Option (List Record)) :
    ∀ (files : List String) (t : TweetDB),
      writesGuarded (processFiles store t loader files).2 := by
  intro files
  induction files with
  | nil =>
    intro t
    exact writesGuarded_nil
  | cons f rest ih =>
    intro t
    simp only [processFiles]
    split
    · exact writesGuarded_nil
    · rename_i loaded hl
      split
      · rename_i e ev1 hins
        have hg1 := insert_tweets_trace_guarded store t loaded
          COLLECTION_NAMES_raw true
        rw [hins] at hg1
        exact hg1
      · rename_i result t1 ev1 hins
        have hg1 := insert_tweets_trace_guarded store t loaded
          COLLECTION_NAMES_raw true
        rw [hins] at hg1
        split
        · rename_i e2 ev2 hrec
          have hg2 := ih t1
          rw [hrec] at hg2
          exact writesGuarded_append hg1 hg2
        · rename_i t2 rep ev2 hrec
          have hg2 := ih t1
          rw [hrec] at hg2
          exact writesGuarded_append hg1 hg2

theorem processGroups_trace_guarded (env : Env) (store : Store) :
    ∀ (groups : List (String × String × String)) (t : TweetDB),
      writesGuarded (processGroups env store t groups).2 := by
  intro groups
  induction groups with
  | nil =>
    intro t
    exact writesGuarded_nil
  | cons g rest ih =>
    intro t
    simp only [processGroups]
    by_cases hty : g.2.2 = "json" ∨ g.2.2 = "csv"
    · rw [if_pos hty]
      split
      · rename_i e ev1 hpf
        have hg1 := processFiles_trace_guarded store
          (if g.2.2 = "json" then env.loadJson else env.loadCsv)
          (env.listFiles g.2.1 g.2.2) t
        rw [hpf] at hg1
        exact hg1
      · rename_i t1 rep1 ev1 hpf
        have hg1 := processFiles_trace_guarded store
          (if g.2.2 = "json" then env.loadJson else env.loadCsv)
          (env.listFiles g.2.1 g.2.2) t
        rw [hpf] at hg1
        split
        · rename_i e2 ev2 hrec
          have hg2 := ih t1
          rw [hrec] at hg2
          exact writesGuarded_append hg1 hg2
        · rename_i t2 rep2 ev2 hrec
          have hg2 := ih t1
          rw [hrec] at hg2
          exact writesGuarded_append hg1 hg2
    · rw [if_neg hty]
      exact ih t

theorem load_raw_data_trace_guarded (env : Env) (store : Store)
    (t : TweetDB) (rcn : Option String) (drop_old_data : Bool) :
    writesGuarded (load_raw_data env store t rcn drop_old_data).2 := by
  simp only [load_raw_data]
  split
  · exact writesGuarded_nil
  · rename_i ex hce
    split
    · exact writesGuarded_nil
    · split
      · rename_i e ev1 hcc
        have hg1 := create_collection_trace_guarded t
          (rcn.getD COLLECTION_NAMES_raw) drop_old_data
        rw [hcc] at hg1
        exact hg1
      · rename_i t1 ev1 hcc
        have hg1 := create_collection_trace_guarded t
          (rcn.getD COLLECTION_NAMES_raw) drop_old_data
        rw [hcc] at hg1
        split
        · rename_i e2 ev2 hpg
          have hg2 := processGroups_trace_guarded env store RAW_DATA_PATHS t1
          rw [hpg] at hg2
          exact writesGuarded_append hg1 hg2
        · rename_i t2 rep ev2 hpg
          have hg2 := processGroups_trace_guarded env store RAW_DATA_PATHS t1
          rw [hpg] at hg2
          exact writesGuarded_append hg1 hg2

/-- C5: across the pipeline's operations — `insert_tweets`,
`update_tweets`, `delete_tweets` and the whole `load_raw_data`
orchestration — every store write call (insert, update, delete) in the
emitted trace was issued in a database state where the target
collection already existed; a write aimed at a nonexistent collection
is rejected by the existence guard before any store call. -/
theorem pipeline_writes_only_to_existing_collections (store : Store)
    (env : Env) (t : TweetDB) (tweet_list : List Record) (cn : String)
    (qd ud : Record) (validate drop_old_data : Bool) (rcn : Option String) :
    writesGuarded (TweetDB.insert_tweets store t tweet_list cn validate).2
    ∧ writesGuarded (TweetDB.update_tweets store t cn qd ud validate).2
    ∧ writesGuarded (TweetDB.delete_tweets store t cn qd validate).2
    ∧ writesGuarded (load_raw_data env store t rcn drop_old_data).2 :=
  ⟨insert_tweets_trace_guarded store t tweet_list cn validate,
   update_tweets_trace_guarded store t cn qd ud validate,
   delete_tweets_trace_guarded store t cn qd validate,
   load_raw_data_trace_guarded env store t rcn drop_old_data⟩

theorem pipeline_writes_only_to_existing_collections_witness :
    collection_exists ⟨[("raw", [recC2])]⟩ "raw" = true :=
  (pipeline_writes_only_to_existing_collections idealStore envC2 tC1
      [recC2] "raw" [] [] true true none).1
    (⟨[("raw", [recC2])]⟩, Call.insertMany "raw" [recC2]) (by decide)
    "raw" rfl

/-! ### Success-shape lemmas: with a live handle, the per-file loop
never raises and reports every discovered file -/

theorem insert_tweets_shape (store : Store) (nm : String) (db : DB)
    (tweet_list : List Record) (cn : String) (validate : Bool) :
    ∃ o db2 ev, TweetDB.insert_tweets store ⟨nm, some db⟩ tweet_list cn validate
      = (.ok (o, ⟨nm, some db2⟩), ev) := by
  by_cases h0 : tweet_list.length = 0
  · exact ⟨.fail, db, [], by simp [TweetDB.insert_tweets, h0]⟩
  · by_cases hex : collection_exists db cn = false
    · exact ⟨.fail, db, [], by simp [TweetDB.insert_tweets, h0, hex]⟩
    · by_cases hval : validate = true
      · by_cases hack : store.insertAck cn tweet_list = true
        · by_cases hcnt : tweet_list.length = store.insertedCount cn tweet_list
          · refine ⟨.ok, db.insertManyStore cn tweet_list,
              [(db, Call.insertMany cn tweet_list)], ?_⟩
            simp only [TweetDB.insert_tweets]
            rw [if_neg h0]
            simp [hex, hval, hack, if_pos hcnt]
          · refine ⟨.fail, db.insertManyStore cn tweet_list,
              [(db, Call.insertMany cn tweet_list)], ?_⟩
            simp only [TweetDB.insert_tweets]
            rw [if_neg h0]
            simp [hex, hval, hack, if_neg hcnt]
        · rw [Bool.not_eq_true] at hack
          refine ⟨.fail, db.insertManyStore cn tweet_list,
            [(db, Call.insertMany cn tweet_list)], ?_⟩
          simp [TweetDB.insert_tweets, h0, hex, hval, hack]
      · rw [Bool.not_eq_true] at hval
        refine ⟨.unvalidated, db.insertManyStore cn tweet_list,
          [(db, Call.insertMany cn tweet_list)], ?_⟩
        simp [TweetDB.insert_tweets, h0, hex, hval]

theorem create_collection_shape (nm : String) (db : DB) (cn : String)
    (ow : Bool) :
    ∃ db1 ev, TweetDB.create_collection ⟨nm, some db⟩ cn ow
      = (.ok ⟨nm, some db1⟩, ev) := by
  by_cases hex : collection_exists db cn = true
  · by_cases how : ow = true
    · refine ⟨db.dropColl cn, [(db, Call.dropColl cn)], ?_⟩
      simp [TweetDB.create_collection, TweetDB.drop_collection, hex, how]
    · rw [Bool.not_eq_true] at how
      exact ⟨db, [], by simp [TweetDB.create_collection, hex, how]⟩
  · rw [Bool.not_eq_true] at hex
    exact ⟨db.createColl cn, [(db, Call.createColl cn)],
      by simp [TweetDB.create_collection, hex]⟩

theorem processFiles_ok (store : Store)
    (loader : String → Option (List Record)) :
    ∀ (files : List String) (nm : String) (db : DB),
      (∀ f ∈ files, (loader f).isSome) →
      ∃ db2 rep ev, processFiles store ⟨nm, some db⟩ loader files
          = (.ok (⟨nm, some db2⟩, rep), ev)
        ∧ rep.map Prod.fst = files := by
  intro files
  induction files with
  | nil =>
    intro nm db hl
    exact ⟨db, [], [], rfl, rfl⟩
  | cons f rest ih =>
    intro nm db hl
    obtain ⟨loaded, hl0⟩ := Option.isSome_iff_exists.mp (hl f (by simp))
    obtain ⟨o, db1, ev1, hins⟩ := insert_tweets_shape store nm db loaded
      COLLECTION_NAMES_raw true
    obtain ⟨db2, rep, ev2, hrec, hmap⟩ := ih nm db1
      (fun g hg => hl g (by simp [hg]))
    refine ⟨db2, (f, o) :: rep, ev1 ++ ev2, ?_, by simp [hmap]⟩
    simp only [processFiles, hl0, hins, hrec]

theorem processGroups_ok (env : Env) (store : Store)
    (hjson : ∀ p, (env.loadJson p).isSome)
    (hcsv : ∀ p, (env.loadCsv p).isSome) :
    ∀ (groups : List (String × String × String)) (nm : String) (db : DB),
      ∃ db2 rep ev, processGroups env store ⟨nm, some db⟩ groups
          = (.ok (⟨nm, some db2⟩, rep), ev)
        ∧ rep.map Prod.fst = discoveredIn env groups := by
  intro groups
  induction groups with
  | nil =>
    intro nm db
    exact ⟨db, [], [], rfl, by simp [discoveredIn]⟩
  | cons g rest ih =>
    intro nm db
    by_cases hty : g.2.2 = "json" ∨ g.2.2 = "csv"
    · have hloader : ∀ f ∈ env.listFiles g.2.1 g.2.2,
          (((if g.2.2 = "json" then env.loadJson else env.loadCsv)) f).isSome := by
        intro f hf
        by_cases hj : g.2.2 = "json" <;> simp [hj, hjson, hcsv]
      obtain ⟨db1, rep1, ev1, hpf, hmap1⟩ := processFiles_ok store
        (if g.2.2 = "json" then env.loadJson else env.loadCsv)
        (env.listFiles g.2.1 g.2.2) nm db hloader
      obtain ⟨db2, rep2, ev2, hpg, hmap2⟩ := ih nm db1
      refine ⟨db2, rep1 ++ rep2, ev1 ++ ev2, ?_, ?_⟩
      · simp only [processGroups]
        rw [if_pos hty]
        simp only [hpf, hpg]
      · simp [hmap1, hmap2, discoveredIn, List.filter_cons, hty]
    · obtain ⟨db2, rep, ev, hpg, hmap⟩ := ih nm db
      refine ⟨db2, rep, ev, ?_, ?_⟩
      · simp only [processGroups]
        rw [if_neg hty]
        exact hpg
      · rw [hmap]
        simp [discoveredIn, List.filter_cons, hty]

/-- C6: with a live handle and well-formed source files, the
orchestrator's run succeeds and its per-file report covers exactly the
discovered files of every implemented catalog group, in order — a
per-file insert failure is recorded as a `False` outcome and does not
halt the iteration (the run is quantified over every store, including
ones that fail every insert). -/
theorem load_raw_data_processes_all_discovered_files (env : Env)
    (store : Store) (nm : String) (db : DB)
    (hjson : ∀ p, (env.loadJson p).isSome)
    (hcsv : ∀ p, (env.loadCsv p).isSome) :
    ∃ db2 rep ev, load_raw_data env store ⟨nm, some db⟩ none true
        = (.ok (⟨nm, some db2⟩, rep), ev)
      ∧ rep.map Prod.fst = discoveredFiles env := by
  obtain ⟨db1, ev1, hcc⟩ := create_collection_shape nm db
    COLLECTION_NAMES_raw true
  obtain ⟨db2, rep, ev2, hpg, hmap⟩ := processGroups_ok env store hjson hcsv
    RAW_DATA_PATHS nm db1
  refine ⟨db2, rep, ev1 ++ ev2, ?_, by simpa [discoveredFiles] using hmap⟩
  simp only [load_raw_data, TweetDB.collection_exists, Option.getD,
    Bool.not_true, Bool.and_false, hcc, hpg]
  simp

/-- A filesystem whose govt directory lists two JSON files and whose
loaders always succeed. -/
def envC6 : Env where
  listFiles := fun path _ =>
    if path = "../data/raw/tweets-govt_entities/" then ["a.json", "b.json"]
    else []
  loadJson := fun _ => some [recC2]
  loadCsv := fun _ => some []

theorem load_raw_data_processes_all_discovered_files_witness :
    ∃ db2 rep ev, load_raw_data envC6 idealStore ⟨"tweets", some ⟨[]⟩⟩ none true
        = (.ok (⟨"tweets", some db2⟩, rep), ev)
      ∧ rep.map Prod.fst = discoveredFiles envC6 :=
  load_raw_data_processes_all_discovered_files envC6 idealStore "tweets" ⟨[]⟩
    (fun _ => rfl) (fun _ => rfl)

end TTTPymongo
